import Mathlib

/-!
Shallow embedding of the audio-workbench batch media-transformation tool.

The repository drives external tools (ffmpeg/ffprobe/opustags) per audio
file.  Pure path and string manipulation is translated directly from the
Go source (package `lib`, `commands`, `processors` and the `main` runner);
the external process invocations and filesystem operations are modelled by
explicit event traces plus oracle parameters that supply each external
call's outcome.
-/

namespace AudioWorkbench

/-! ### Models of the Go standard library functions the code uses -/

/-- Model of Go `strings.HasSuffix s suffix`. -/
def goHasSuffix (s suffix : String) : Bool :=
  List.isSuffixOf suffix.data s.data

/-- Core of `filepath.Ext`: scan the reversed character list (i.e. the
string from the right); stop at a path separator, return the extension on
the first dot.  `acc` holds the characters already passed, in original
order. -/
def goExtCore : List Char → List Char → Option (List Char)
  | [], _ => none
  | c :: rest, acc =>
    if c = '/' then none
    else if c = '.' then some (c :: acc)
    else goExtCore rest (c :: acc)

/-- Model of Go `filepath.Ext`: the suffix beginning at the final dot in
the final slash-separated element of the path; empty when there is none. -/
def goExt (p : String) : String :=
  match goExtCore p.data.reverse [] with
  | some cs => String.mk cs
  | none => ""

/-- Model of Go `filepath.Base`: strip trailing slashes, then keep the part
after the last remaining slash; `""` gives `"."`, an all-slash path gives
`"/"`. -/
def goBase (p : String) : String :=
  if p = "" then "."
  else
    let r := p.data.reverse.dropWhile (· = '/')
    let b := (r.takeWhile (· ≠ '/')).reverse
    if b = [] then "/" else String.mk b

/-- Split a character list on `'/'` (helper for the `path.Clean` model). -/
def splitSlash : List Char → List (List Char)
  | [] => [[]]
  | c :: rest =>
    if c = '/' then [] :: splitSlash rest
    else
      match splitSlash rest with
      | [] => [[c]]
      | g :: gs => (c :: g) :: gs

/-- Stack-based processing of path components for the `path.Clean` model:
empty and `"."` components are dropped, `".."` pops the previous component
(kept literally at the start of a relative path, dropped at a root). -/
def cleanStack (rooted : Bool) : List (List Char) → List (List Char) → List (List Char)
  | [], acc => acc.reverse
  | comp :: rest, acc =>
    if comp = [] ∨ comp = ['.'] then cleanStack rooted rest acc
    else if comp = ['.', '.'] then
      match acc with
      | [] => if rooted then cleanStack rooted rest [] else cleanStack rooted rest [['.', '.']]
      | top :: accTail =>
        if top = ['.', '.'] then cleanStack rooted rest (['.', '.'] :: top :: accTail)
        else cleanStack rooted rest accTail
    else cleanStack rooted rest (comp :: acc)

/-- Model of Go `path/filepath.Clean` (unix separator): shortest lexically
equivalent path — collapse multiple slashes, eliminate `.` and resolvable
`..` components; the empty path cleans to `"."`. -/
def goClean (p : String) : String :=
  if p = "" then "."
  else
    let rooted := p.data.head? = some '/'
    let comps := cleanStack rooted (splitSlash p.data) []
    let body := String.mk (List.intercalate ['/'] comps)
    if rooted then
      if body = "" then "/" else "/" ++ body
    else
      if body = "" then "." else body

/-- Model of Go `filepath.Join` on two elements: skip leading empty
elements, join the rest with a slash and `Clean` the result. -/
def goJoin2 (a b : String) : String :=
  if a = "" then
    if b = "" then "" else goClean b
  else goClean (a ++ "/" ++ b)

/-- Model of Go `filepath.Dir`: everything up to and including the final
separator, `Clean`ed; a path with no separator gives `"."`. -/
def goDir (p : String) : String :=
  let r := p.data.reverse
  let rest := r.dropWhile (· ≠ '/')
  goClean (String.mk rest.reverse)

/-- Model of Go `strings.TrimRight s cutset`: remove trailing characters
that occur anywhere in `cutset` (a character *set*, not a suffix). -/
def goTrimRight (s cutset : String) : String :=
  String.mk ((s.data.reverse.dropWhile (fun c => cutset.data.contains c)).reverse)

/-- Model of Go `strings.Trim s cutset`: remove leading and trailing
characters that occur in `cutset`. -/
def goTrim (s cutset : String) : String :=
  let l := s.data.dropWhile (fun c => cutset.data.contains c)
  String.mk ((l.reverse.dropWhile (fun c => cutset.data.contains c)).reverse)

/-- First index of character `c`, or `none` (core of `strings.Index` for
the single-character patterns the code uses). -/
def idxFrom? (c : Char) : List Char → Option Nat
  | [] => none
  | a :: rest => if a = c then some 0 else (idxFrom? c rest).map (· + 1)

/-- Model of Go `strings.Index s c` for a single-character pattern: the
byte index of the first occurrence, `-1` when absent (ASCII inputs, so
byte and character indices coincide). -/
def goIndex1 (s : String) (c : Char) : Int :=
  match idxFrom? c s.data with
  | some n => (n : Int)
  | none => -1

/-- Model of the Go string slice expression `s[a:b]`: in range it yields
the substring, out of range it is a runtime panic (slice bounds out of
range). -/
def goSlice (s : String) (a b : Int) : Option String :=
  if 0 ≤ a ∧ a ≤ b ∧ b ≤ (s.data.length : Int) then
    some (String.mk ((s.data.drop a.toNat).take (b.toNat - a.toNat)))
  else none

/-! ### Data model (package `lib`) -/

/-- `lib.Mediafile`: a discovered input file; `IsOpus` marks the `.opus` /
`.ogg` tag-cover container family. -/
structure Mediafile where
  Path : String
  IsOpus : Bool
deriving DecidableEq, Repr

/-- `lib.BuildOutputPath`: empty output argument means an in-place scratch
name `temp<ext>`; an extension-less output argument is treated as a
directory and joined with the input's basename; otherwise the argument is
the literal destination. -/
def BuildOutputPath (file : Mediafile) (outputDir : String) : String :=
  if outputDir = "" then "temp" ++ goExt file.Path
  else if goExt outputDir = "" then goJoin2 outputDir (goBase file.Path)
  else outputDir

/-! ### Errors, events and oracles -/

/-- Structured counterpart of the `error` values the code builds with
`fmt.Errorf`; raw messages from the operating system and external tools
are carried as strings.  `failedOverwrite` is the error built by
`lib.RenameTempFile`, whose `inner` component is the (possibly absent)
`os.Rename` error it interpolates. -/
inductive GoErr
  | os (msg : String)
  | unmarshal
  | failedOverwrite (path : String) (inner : Option String)
  | coverExtractFailed (path : String) (inner : GoErr)
  | sampleRateFailed (path : String) (inner : String)
  | bitrateFailed (path : String) (inner : String)
  | loudnessFailed (path : String) (inner : GoErr)
  | normalizeFailed (path : String) (inner : GoErr)
  | convertFailed (path : String) (format : String) (inner : GoErr)
  | setCoverFailed (path : String) (inner : GoErr)
  | removeCoverFailed (inner : String)
deriving DecidableEq, Repr

/-- Result of a pure-Go code path that can also crash at runtime:
`crash` models a Go panic (here: string slice bounds out of range). -/
inductive PRes (α : Type)
  | ok (a : α)
  | err (e : GoErr)
  | crash
deriving DecidableEq, Repr

/-- Observable side effects of a run: external process invocations and
filesystem operations, in program order. -/
inductive Event
  | mkdirAll (dir : String)
  | runFfmpeg (args : List String)
  | runOpustags (args : List String)
  | statFile (path : String)
  | renameFile (src dst : String)
  | removeFile (path : String)
deriving DecidableEq, Repr

/-- Outcome of the `os.Stat "cover.jpg"` probe after the cover tool ran. -/
inductive StatResult
  | found
  | notExist
  | statErr (msg : String)
deriving DecidableEq, Repr

/-- `commands.LoudnessInfo`: the five fields of ffmpeg's loudnorm
measurement report, kept as strings exactly as the code does. -/
structure LoudnessInfo where
  I : String
  TP : String
  LRA : String
  Thresh : String
  Offset : String
deriving DecidableEq, Repr

/-- Oracle supplying the outcome of every external invocation and
filesystem operation one file's processing performs.  Probe outputs are
indexed by the path the probe is invoked on; `parse` stands for
`json.Unmarshal` into `LoudnessInfo` (`none` = parse error). -/
structure ExtOracle where
  coverTool : Option String
  coverStat : StatResult
  sampleRateOut : String → Except String String
  bitrateOut : String → Except String String
  loudOut : String → Except String String
  parse : String → Option LoudnessInfo
  engine : Option String
  renameRes : Option String
  setCoverTool : Option String
  setCoverRename : Option String
  removeRes : Option String

/-! ### Package `commands` -/

/-- `commands.ExtractSampleRate`: ffprobe on the given path, newline-trimmed
(the probe's raw output is supplied by the oracle, indexed by path). -/
def ExtractSampleRate (o : ExtOracle) (path : String) : Except String String :=
  (o.sampleRateOut path).map (fun out => goTrim out "\n")

/-- `commands.ExtractBitrate`: a fixed `"128000"` default for the opus
family, otherwise the ffprobe measurement on the file's path,
newline-trimmed. -/
def ExtractBitrate (o : ExtOracle) (file : Mediafile) : Except String String :=
  if file.IsOpus then Except.ok "128000"
  else (o.bitrateOut file.Path).map (fun out => goTrim out "\n")

/-- `commands.ExtractLoudnessInfo`: pass 1.  On engine success, slice the
combined output from the first `'\x7b'` to the first `'\x7d'` (Go
`strings.Index` on both) and unmarshal; an out-of-range slice is a
runtime panic. -/
def ExtractLoudnessInfo (parse : String → Option LoudnessInfo)
    (output : Except String String) : PRes LoudnessInfo :=
  match output with
  | Except.error e => PRes.err (GoErr.os e)
  | Except.ok out =>
    match goSlice out (goIndex1 out '\x7b') (goIndex1 out '\x7d' + 1) with
    | none => PRes.crash
    | some sub =>
      match parse sub with
      | some li => PRes.ok li
      | none => PRes.err GoErr.unmarshal

/-- The loudnorm filter string of pass 2.  The `%.2f`-formatted target
loudness (a float64, outside a shallow integer embedding) is abstracted as
the already-formatted string `targetFmt`. -/
def loudnormFilter (targetFmt : String) (li : LoudnessInfo) : String :=
  "loudnorm=linear=true:I=" ++ targetFmt ++ ":LRA=7.0:TP=-2.0:offset=" ++ li.Offset ++
  ":measured_I=" ++ li.I ++ ":measured_TP=" ++ li.TP ++ ":measured_LRA=" ++ li.LRA ++
  ":measured_thresh=" ++ li.Thresh

/-- The ffmpeg argument list of pass 2 (`commands.NormalizeLoudness`):
`-ar`/`-b:a` carry the extracted sample rate and bitrate; opus files remap
only metadata, all other files remap every stream plus metadata. -/
def pass2Args (file : Mediafile) (outpath loudnorm sampleRate bitrate : String) : List String :=
  ["-i", file.Path, "-af", loudnorm, "-ar", sampleRate, "-b:a", bitrate] ++
  (if !file.IsOpus then ["-map", "0", "-map_metadata", "0", outpath]
   else ["-map_metadata", "0", outpath])

/-- `lib.RenameTempFile`: when the destination's basename is the scratch
name `temp<ext>`, rename the scratch file over the original — and then
build and return the "Failed to overwrite" error unconditionally, whether
or not `os.Rename` failed (its error, possibly nil, is interpolated). -/
def RenameTempFile (file : Mediafile) (outpath : String) (renameRes : Option String) :
    List Event × Option GoErr :=
  let tempfile := "temp" ++ goExt outpath
  if goBase outpath = "temp" ++ goExt outpath then
    ([Event.renameFile tempfile file.Path],
     some (GoErr.failedOverwrite file.Path renameRes))
  else ([], none)

/-- `commands.NormalizeLoudness`: run pass 2, then `lib.RenameTempFile`. -/
def NormalizeLoudness (file : Mediafile) (outpath targetFmt : String) (li : LoudnessInfo)
    (sampleRate bitrate : String) (engineRes renameRes : Option String) :
    List Event × Option GoErr :=
  let args := pass2Args file outpath (loudnormFilter targetFmt li) sampleRate bitrate
  match engineRes with
  | some e => ([Event.runFfmpeg args], some (GoErr.os e))
  | none =>
    let step := RenameTempFile file outpath renameRes
    (Event.runFfmpeg args :: step.1, step.2)

/-- `commands.Convert`: one re-encode pass carrying the source sample rate
and bitrate, then `lib.RenameTempFile`. -/
def Convert (file : Mediafile) (outpath sampleRate bitrate : String)
    (engineRes renameRes : Option String) : List Event × Option GoErr :=
  let args := ["-i", file.Path, "-ar", sampleRate, "-b:a", bitrate] ++
    (if !file.IsOpus then ["-map", "0", "-map_metadata", "0", outpath]
     else ["-map_metadata", "0", outpath])
  match engineRes with
  | some e => ([Event.runFfmpeg args], some (GoErr.os e))
  | none =>
    let step := RenameTempFile file outpath renameRes
    (Event.runFfmpeg args :: step.1, step.2)

/-- `commands.ExtractCover` (the cover.jpg scratch extraction): run the
container family's tool, then report a cover exactly when `os.Stat`
finds `cover.jpg` in the working directory; a missing file is the normal
"no cover" result, any other stat failure is an error. -/
def ExtractCover (file : Mediafile) (toolRes : Option String) (statRes : StatResult) :
    List Event × Except GoErr Bool :=
  let toolEv :=
    if file.IsOpus then Event.runOpustags ["--output-cover", "cover.jpg", file.Path, "-i"]
    else Event.runFfmpeg ["-i", file.Path, "-an", "-c:v", "copy", "cover.jpg"]
  match toolRes with
  | some e => ([toolEv], Except.error (GoErr.os e))
  | none =>
    match statRes with
    | StatResult.found => ([toolEv, Event.statFile "cover.jpg"], Except.ok true)
    | StatResult.notExist => ([toolEv, Event.statFile "cover.jpg"], Except.ok false)
    | StatResult.statErr e => ([toolEv, Event.statFile "cover.jpg"], Except.error (GoErr.os e))

/-- `commands.SetCover`: opus files are retagged in place by opustags; for
other containers ffmpeg muxes the image into a `temp<ext>` copy which is
renamed over the file. -/
def SetCover (file : Mediafile) (cover : String) (toolRes renameRes : Option String) :
    List Event × Option GoErr :=
  if file.IsOpus then
    ([Event.runOpustags ["--set-cover", cover, file.Path, "-i"]], toolRes.map GoErr.os)
  else
    let tempfile := "temp" ++ goExt file.Path
    let args := ["-i", file.Path, "-i", cover, "-map", "0", "-map", "1", "-c", "copy",
      "-metadata:s:v", "title=\"Album cover\"", "-metadata:s:v", "comment=\"Cover (front)\"",
      tempfile]
    match toolRes with
    | some e => ([Event.runFfmpeg args], some (GoErr.os e))
    | none =>
      ([Event.runFfmpeg args, Event.renameFile tempfile file.Path], renameRes.map GoErr.os)

/-! ### Package `processors` -/

/-- `processors.Normalizer.Run`: optional cover extraction for the opus
family, the three probes on the original file, the two-pass loudness
normalization, then optional cover reinjection and scratch deletion. -/
def NormalizerRun (targetFmt : String) (file : Mediafile) (outpath : String)
    (o : ExtOracle) : List Event × PRes Unit :=
  let covEvs := if file.IsOpus then (ExtractCover file o.coverTool o.coverStat).1 else []
  let covRes := if file.IsOpus then (ExtractCover file o.coverTool o.coverStat).2
                else Except.ok false
  match covRes with
  | Except.error e => (covEvs, PRes.err (GoErr.coverExtractFailed file.Path e))
  | Except.ok hasCover =>
    match ExtractSampleRate o file.Path with
    | Except.error e => (covEvs, PRes.err (GoErr.sampleRateFailed file.Path e))
    | Except.ok sampleRate =>
      match ExtractBitrate o file with
      | Except.error e => (covEvs, PRes.err (GoErr.bitrateFailed file.Path e))
      | Except.ok bitrate =>
        match ExtractLoudnessInfo o.parse (o.loudOut file.Path) with
        | PRes.crash => (covEvs, PRes.crash)
        | PRes.err e => (covEvs, PRes.err (GoErr.loudnessFailed file.Path e))
        | PRes.ok li =>
          let norm := NormalizeLoudness file outpath targetFmt li sampleRate bitrate
            o.engine o.renameRes
          match norm.2 with
          | some e => (covEvs ++ norm.1, PRes.err (GoErr.normalizeFailed file.Path e))
          | none =>
            if file.IsOpus && hasCover then
              let sc := SetCover file "cover.jpg" o.setCoverTool o.setCoverRename
              match sc.2 with
              | some e => (covEvs ++ norm.1 ++ sc.1, PRes.err (GoErr.setCoverFailed file.Path e))
              | none =>
                match o.removeRes with
                | some e => (covEvs ++ norm.1 ++ sc.1 ++ [Event.removeFile "cover.jpg"],
                             PRes.err (GoErr.removeCoverFailed e))
                | none => (covEvs ++ norm.1 ++ sc.1 ++ [Event.removeFile "cover.jpg"],
                           PRes.ok ())
            else (covEvs ++ norm.1, PRes.ok ())

/-- The destination rewrite `processors.Converter.Run` performs before
invoking the engine: `strings.TrimRight outpath ext` (a character-set
trim) followed by `"." ++ format`. -/
def converterOutpath (outpath format : String) : String :=
  goTrimRight outpath (goExt outpath) ++ "." ++ format

/-- `processors.Converter.Run`: optional cover extraction, destination
extension rewrite, the two probes, the conversion pass, then optional
cover reinjection and scratch deletion. -/
def ConverterRun (format : String) (file : Mediafile) (outpath : String)
    (o : ExtOracle) : List Event × PRes Unit :=
  let covEvs := if file.IsOpus then (ExtractCover file o.coverTool o.coverStat).1 else []
  let covRes := if file.IsOpus then (ExtractCover file o.coverTool o.coverStat).2
                else Except.ok false
  match covRes with
  | Except.error e => (covEvs, PRes.err (GoErr.coverExtractFailed file.Path e))
  | Except.ok hasCover =>
    let outpath2 := converterOutpath outpath format
    match ExtractSampleRate o file.Path with
    | Except.error e => (covEvs, PRes.err (GoErr.sampleRateFailed file.Path e))
    | Except.ok sampleRate =>
      match ExtractBitrate o file with
      | Except.error e => (covEvs, PRes.err (GoErr.bitrateFailed file.Path e))
      | Except.ok bitrate =>
        let conv := Convert file outpath2 sampleRate bitrate o.engine o.renameRes
        match conv.2 with
        | some e => (covEvs ++ conv.1, PRes.err (GoErr.convertFailed file.Path format e))
        | none =>
          if file.IsOpus && hasCover then
            let sc := SetCover file "cover.jpg" o.setCoverTool o.setCoverRename
            match sc.2 with
            | some e => (covEvs ++ conv.1 ++ sc.1, PRes.err (GoErr.setCoverFailed file.Path e))
            | none =>
              match o.removeRes with
              | some e => (covEvs ++ conv.1 ++ sc.1 ++ [Event.removeFile "cover.jpg"],
                           PRes.err (GoErr.removeCoverFailed e))
              | none => (covEvs ++ conv.1 ++ sc.1 ++ [Event.removeFile "cover.jpg"],
                         PRes.ok ())
          else (covEvs ++ conv.1, PRes.ok ())

/-! ### The batch runner (`main`) -/

/-- `lib.CreateOutputDir`: for a non-empty output argument, `os.MkdirAll`
on `filepath.Dir` of the argument; the oracle `mk` gives the result per
directory. -/
def CreateOutputDir (outputDir : String) (mk : String → Option String) :
    List Event × Option String :=
  if outputDir ≠ "" then ([Event.mkdirAll (goDir outputDir)], mk (goDir outputDir))
  else ([], none)

/-- The fatal exits (`log.Fatal*`) the runner takes before its loop. -/
inductive RunnerFatal
  | createDirFailed (msg : String)
  | collectFailed (msg : String)
deriving DecidableEq, Repr

/-- One iteration of the runner's loop: the file, the destination resolved
for it, and the result `processor.Run` returned (which the code
discards). -/
structure RunStep where
  file : Mediafile
  outpath : String
  result : PRes Unit
deriving DecidableEq, Repr

/-- The `runner` of `main`: create the output directory (fatal on error),
collect the input files (fatal on error), then for each file resolve the
destination and invoke the processor.  `runResult` abstracts what
`processor.Run` returns for a file and destination; the code ignores that
return value, so every discovered file gets a step. -/
def runner (outputDir : String) (mk : String → Option String)
    (collected : Except String (List Mediafile))
    (runResult : Mediafile → String → PRes Unit) :
    Except RunnerFatal (List RunStep) :=
  match (CreateOutputDir outputDir mk).2 with
  | some e => Except.error (RunnerFatal.createDirFailed e)
  | none =>
    match collected with
    | Except.error e => Except.error (RunnerFatal.collectFailed e)
    | Except.ok files =>
      Except.ok (files.map (fun f =>
        let op := BuildOutputPath f outputDir
        ⟨f, op, runResult f op⟩))

/-! ### CLI validation of the resample command (`main`) -/

/-- The processor variant the CLI hands to the runner. -/
inductive ProcSpec
  | normalizer (targetFmt : String)
  | converter (format : String)
  | resampler (rate : Int)
deriving DecidableEq, Repr

/-- A call into the runner as issued by the CLI layer. -/
structure RunnerCall where
  input : String
  output : String
  proc : ProcSpec
deriving DecidableEq, Repr

/-- What the resample command does after flag parsing: reject or run. -/
inductive CmdResult
  | fatalBounds (rate : Int)
  | fatalOpusRate (rate : Int)
  | run (c : RunnerCall)
deriving DecidableEq, Repr

/-- The opus-family sample-rate allow-list of the resample command. -/
def validOpusRates : List Int := [48000, 24000, 16000, 12000, 8000]

/-- The resample command's validation (in `main`, before the runner and
hence before the Resampler component runs): reject rates outside
8000..192000 for every input, then reject rates outside the opus
allow-list for `.opus`/`.ogg` inputs, otherwise invoke the runner with
the Resampler. -/
def resampleCommand (input output : String) (rate : Int) : CmdResult :=
  if rate > 192000 ∨ rate < 8000 then CmdResult.fatalBounds rate
  else if (goHasSuffix input ".opus" || goHasSuffix input ".ogg")
          && !(validOpusRates.contains rate) then CmdResult.fatalOpusRate rate
  else CmdResult.run ⟨input, output, ProcSpec.resampler rate⟩

/-! ### Spec-side definitions (for refinement comparisons only; these
follow the specification's wording, not the source) -/

/-- Spec side: consume characters up to and including the `'\x7d'` that
matches at the given nesting depth (depth 0 = the next unmatched close
brace ends the object). -/
def matchedClose : Nat → List Char → Option (List Char)
  | _, [] => none
  | d, c :: rest =>
    if c = '\x7b' then (matchedClose (d + 1) rest).map (c :: ·)
    else if c = '\x7d' then
      if d = 0 then some [c] else (matchedClose (d - 1) rest).map (c :: ·)
    else (matchedClose d rest).map (c :: ·)

/-- Spec side: the substring framed by the first `'\x7b'` and the last
matching `'\x7d'` — the `\x7b…\x7d` JSON object the spec says pass 1
locates. -/
def specFramed : List Char → Option (List Char)
  | [] => none
  | c :: rest =>
    if c = '\x7b' then (matchedClose 0 rest).map (c :: ·)
    else specFramed rest

/-- Characters up to and including the first `'\x7d'` (helper for the
amended description of the pass-1 slice). -/
def throughClose : List Char → Option (List Char)
  | [] => none
  | c :: rest =>
    if c = '\x7d' then some [c]
    else (throughClose rest).map (c :: ·)

/-- The substring framed by the first `'\x7b'` and the first `'\x7d'`
after it, described independently of the code's index arithmetic. -/
def fromOpen : List Char → Option (List Char)
  | [] => none
  | c :: rest =>
    if c = '\x7b' then throughClose (c :: rest)
    else fromOpen rest

/-- Spec side: remove `suffix` once from the end of `s` if present
(suffix removal, as opposed to Go's character-set `TrimRight`). -/
def chopSuffix (s suffix : String) : String :=
  if goHasSuffix s suffix then String.mk (s.data.take (s.data.length - suffix.data.length))
  else s

/-- Spec side: the destination with its final extension replaced by the
target format — what the Converter claim says the engine receives. -/
def specExtReplace (outpath format : String) : String :=
  chopSuffix outpath (goExt outpath) ++ "." ++ format

/-- Filesystem semantics of the cover scratch file: after the extraction
tool ran, `os.Stat "cover.jpg"` finds the file exactly when a leftover
`cover.jpg` predated the run or the tool just wrote one. -/
def coverStatAfter (leftover wrote : Bool) : StatResult :=
  if leftover || wrote then StatResult.found else StatResult.notExist

/-- An oracle under which every external invocation succeeds; used to
instantiate concrete scenarios. -/
def allOkOracle : ExtOracle where
  coverTool := none
  coverStat := StatResult.notExist
  sampleRateOut := fun _ => Except.ok "48000\n"
  bitrateOut := fun _ => Except.ok "320000\n"
  loudOut := fun _ => Except.ok "noise \x7b json \x7d tail"
  parse := fun _ => some ⟨"-23.0", "-5.0", "7.0", "-33.0", "0.0"⟩
  engine := none
  renameRes := none
  setCoverTool := none
  setCoverRename := none
  removeRes := none

/-! ### Helper lemmas -/

lemma idxFrom?_lt_length {c : Char} :
    ∀ {l : List Char} {n : Nat}, idxFrom? c l = some n → n < l.length := by
  intro l
  induction l with
  | nil => intro n h; simp [idxFrom?] at h
  | cons a rest ih =>
    intro n h
    by_cases ha : a = c
    · simp [idxFrom?, ha] at h
      subst h
      simp
    · simp [idxFrom?, ha] at h
      obtain ⟨m, hm, rfl⟩ := h
      have := ih hm
      simp only [List.length_cons]
      omega

lemma throughClose_eq :
    ∀ {l : List Char} {j : Nat}, idxFrom? '\x7d' l = some j →
      throughClose l = some (l.take (j + 1)) := by
  intro l
  induction l with
  | nil => intro j h; simp [idxFrom?] at h
  | cons a rest ih =>
    intro j h
    by_cases ha : a = '\x7d'
    · simp [idxFrom?, ha] at h
      subst h
      simp [throughClose, ha]
    · simp [idxFrom?, ha] at h
      obtain ⟨m, hm, rfl⟩ := h
      simp [throughClose, ha, ih hm]

lemma fromOpen_eq :
    ∀ {l : List Char} {i j : Nat}, idxFrom? '\x7b' l = some i →
      idxFrom? '\x7d' l = some j → i ≤ j →
      fromOpen l = some ((l.drop i).take (j + 1 - i)) := by
  intro l
  induction l with
  | nil => intro i j h1 _ _; simp [idxFrom?] at h1
  | cons a rest ih =>
    intro i j h1 h2 hij
    by_cases ha : a = '\x7b'
    · simp [idxFrom?, ha] at h1
      subst h1
      simp only [fromOpen, if_pos ha, List.drop_zero, Nat.sub_zero]
      exact throughClose_eq h2
    · simp [idxFrom?, ha] at h1
      obtain ⟨m, hm, rfl⟩ := h1
      have haj : a ≠ '\x7d' := by
        intro he
        simp [idxFrom?, he] at h2
        omega
      simp [idxFrom?, haj] at h2
      obtain ⟨n, hn, rfl⟩ := h2
      have : m ≤ n := by omega
      simp only [fromOpen, if_neg ha, List.drop_succ_cons]
      have harith : n + 1 + 1 - (m + 1) = n + 1 - m := by omega
      rw [harith]
      exact ih hm hn this

/-! ### Claim theorems -/

/-- C1: the claim says a failed file halts the batch run so that no
subsequent file is processed.  The runner discards `processor.Run`'s
return value: in a two-file batch whose first file fails, the second file
is still resolved and processed. -/
theorem c1_runner_ignores_processing_failure :
    runner "out" (fun _ => none)
      (Except.ok [⟨"a.mp3", false⟩, ⟨"b.mp3", false⟩])
      (fun f _ => if f.Path = "a.mp3" then PRes.err (GoErr.os "boom") else PRes.ok ())
    = Except.ok
        [⟨⟨"a.mp3", false⟩, "out/a.mp3", PRes.err (GoErr.os "boom")⟩,
         ⟨⟨"b.mp3", false⟩, "out/b.mp3", PRes.ok ()⟩] := by
  rfl

/-- C2: in in-place mode, after a fully successful transform the scratch
result is indeed renamed over the original, but the pipeline reports an
error: `lib.RenameTempFile` builds its "Failed to overwrite" error
unconditionally, so `Normalizer.Run` returns a failure even though
`os.Rename` succeeded. -/
theorem c2_inplace_success_reported_as_error :
    BuildOutputPath ⟨"song.mp3", false⟩ "" = "temp.mp3"
    ∧ RenameTempFile ⟨"song.mp3", false⟩ "temp.mp3" none
        = ([Event.renameFile "temp.mp3" "song.mp3"],
           some (GoErr.failedOverwrite "song.mp3" none))
    ∧ Event.renameFile "temp.mp3" "song.mp3"
        ∈ (NormalizerRun "-18.00" ⟨"song.mp3", false⟩ "temp.mp3" allOkOracle).1
    ∧ (NormalizerRun "-18.00" ⟨"song.mp3", false⟩ "temp.mp3" allOkOracle).2
        = PRes.err (GoErr.normalizeFailed "song.mp3"
            (GoErr.failedOverwrite "song.mp3" none)) := by
  refine ⟨rfl, rfl, ?_, rfl⟩
  show Event.renameFile "temp.mp3" "song.mp3" ∈
    [Event.runFfmpeg (pass2Args ⟨"song.mp3", false⟩ "temp.mp3"
      (loudnormFilter "-18.00" ⟨"-23.0", "-5.0", "7.0", "-33.0", "0.0"⟩) "48000" "320000"),
     Event.renameFile "temp.mp3" "song.mp3"]
  simp

/-- C3: the Output Path Resolver returns the in-place scratch name
`temp<ext>` for an empty output argument, joins a directory-style
(extension-less) argument with the input's basename, and passes an
argument that carries an extension through verbatim; in particular the
three scenario examples of the spec. -/
theorem c3_build_output_path (file : Mediafile) (out : String) :
    (out = "" → BuildOutputPath file out = "temp" ++ goExt file.Path)
    ∧ (out ≠ "" → goExt out = "" →
        BuildOutputPath file out = goJoin2 out (goBase file.Path))
    ∧ (goExt out ≠ "" → BuildOutputPath file out = out)
    ∧ BuildOutputPath ⟨"song.mp3", false⟩ "" = "temp.mp3"
    ∧ BuildOutputPath ⟨"song.mp3", false⟩ "out/" = "out/song.mp3"
    ∧ BuildOutputPath ⟨"song.mp3", false⟩ "out/renamed.flac" = "out/renamed.flac" := by
  refine ⟨?_, ?_, ?_, rfl, rfl, rfl⟩
  · intro h
    simp [BuildOutputPath, h]
  · intro h1 h2
    simp [BuildOutputPath, h1, h2]
  · intro h
    have h0 : out ≠ "" := by
      intro he
      subst he
      exact h rfl
    simp [BuildOutputPath, h0, h]

/-- C3 witness: instantiates the directory-style clause at a concrete
input and output. -/
theorem c3_build_output_path_witness :
    BuildOutputPath ⟨"b.opus", true⟩ "dir" = goJoin2 "dir" (goBase "b.opus") :=
  (c3_build_output_path ⟨"b.opus", true⟩ "dir").2.1 (by decide) rfl

/-- C7: the claim says the engine receives the destination with its final
extension replaced by the target format, e.g. `song.ogg` with target
`mp3` becomes `song.mp3`.  The code uses `strings.TrimRight` with the
extension as a character set, which also eats the basename's trailing
`g`, producing `son.mp3`. -/
theorem c7_trimright_mangles_destination :
    converterOutpath "song.ogg" "mp3" = "son.mp3"
    ∧ specExtReplace "song.ogg" "mp3" = "song.mp3"
    ∧ ("son.mp3" : String) ≠ "song.mp3" := by
  refine ⟨rfl, rfl, by decide⟩

/-- Oracle for the C4 scenario: every tool succeeds and the stat probe
finds the extracted cover. -/
def c4Oracle : ExtOracle := { allOkOracle with coverStat := StatResult.found }

/-- C4: converting an opus file that embeds a cover, with an output
directory, the transform's output lands at `out/a.mp3` (extension
rewritten) — but the cover is reinjected into the original input file
`in/a.opus`, not into `out/a.mp3`; only the scratch deletion matches the
claim. -/
theorem c4_cover_reinjected_into_original :
    converterOutpath "out/a.opus" "mp3" = "out/a.mp3"
    ∧ (ConverterRun "mp3" ⟨"in/a.opus", true⟩ "out/a.opus" c4Oracle).1
        = [Event.runOpustags ["--output-cover", "cover.jpg", "in/a.opus", "-i"],
           Event.statFile "cover.jpg",
           Event.runFfmpeg ["-i", "in/a.opus", "-ar", "48000", "-b:a", "128000",
             "-map_metadata", "0", "out/a.mp3"],
           Event.runOpustags ["--set-cover", "cover.jpg", "in/a.opus", "-i"],
           Event.removeFile "cover.jpg"]
    ∧ (ConverterRun "mp3" ⟨"in/a.opus", true⟩ "out/a.opus" c4Oracle).2 = PRes.ok ()
    ∧ Event.runOpustags ["--set-cover", "cover.jpg", "out/a.mp3", "-i"]
        ∉ (ConverterRun "mp3" ⟨"in/a.opus", true⟩ "out/a.opus" c4Oracle).1 := by
  refine ⟨rfl, rfl, rfl, ?_⟩
  have htr : (ConverterRun "mp3" ⟨"in/a.opus", true⟩ "out/a.opus" c4Oracle).1
      = [Event.runOpustags ["--output-cover", "cover.jpg", "in/a.opus", "-i"],
         Event.statFile "cover.jpg",
         Event.runFfmpeg ["-i", "in/a.opus", "-ar", "48000", "-b:a", "128000",
           "-map_metadata", "0", "out/a.mp3"],
         Event.runOpustags ["--set-cover", "cover.jpg", "in/a.opus", "-i"],
         Event.removeFile "cover.jpg"] := rfl
  rw [htr]
  decide

/-- Oracle for the C5 counterexample: the bitrate probe on the source
measures 64000 bit/s. -/
def c5Oracle : ExtOracle := { allOkOracle with bitrateOut := fun _ => Except.ok "64000\n" }

/-- C5 counterexample: for an opus file whose measured bitrate is 64000,
`ExtractBitrate` ignores the probe and returns the fixed default
`"128000"`, and pass 2 is invoked with `-b:a 128000`, not with the
measured `64000`. -/
theorem c5_opus_bitrate_is_default_not_measured :
    goTrim "64000\n" "\n" = "64000"
    ∧ ExtractBitrate c5Oracle ⟨"b.opus", true⟩ = Except.ok "128000"
    ∧ Event.runFfmpeg (pass2Args ⟨"b.opus", true⟩ "out/b.opus"
          (loudnormFilter "-18.00" ⟨"-23.0", "-5.0", "7.0", "-33.0", "0.0"⟩)
          "48000" "128000")
        ∈ (NormalizerRun "-18.00" ⟨"b.opus", true⟩ "out/b.opus" c5Oracle).1
    ∧ Event.runFfmpeg (pass2Args ⟨"b.opus", true⟩ "out/b.opus"
          (loudnormFilter "-18.00" ⟨"-23.0", "-5.0", "7.0", "-33.0", "0.0"⟩)
          "48000" "64000")
        ∉ (NormalizerRun "-18.00" ⟨"b.opus", true⟩ "out/b.opus" c5Oracle).1
    ∧ ("128000" : String) ≠ "64000" := by
  have htr : (NormalizerRun "-18.00" ⟨"b.opus", true⟩ "out/b.opus" c5Oracle).1
      = [Event.runOpustags ["--output-cover", "cover.jpg", "b.opus", "-i"],
         Event.statFile "cover.jpg",
         Event.runFfmpeg (pass2Args ⟨"b.opus", true⟩ "out/b.opus"
           (loudnormFilter "-18.00" ⟨"-23.0", "-5.0", "7.0", "-33.0", "0.0"⟩)
           "48000" "128000")] := rfl
  refine ⟨rfl, rfl, ?_, ?_, by decide⟩
  · rw [htr]
    simp
  · rw [htr]
    decide

/-- C5 amended: pass 2's `-ar`/`-b:a` are the values `Normalizer.Run`
extracted from the *original* file's path before the transform: the
newline-trimmed sample-rate probe output, and for the bitrate the
newline-trimmed probe output for non-opus files but the fixed `"128000"`
default for the opus family. -/
theorem c5_pass2_rates_from_original (targetFmt : String) (file : Mediafile)
    (outpath : String) (o : ExtOracle) (hc : Bool) (sr br : String) (li : LoudnessInfo)
    (hcov : (if file.IsOpus then (ExtractCover file o.coverTool o.coverStat).2
             else Except.ok false) = Except.ok hc)
    (hsr : ExtractSampleRate o file.Path = Except.ok sr)
    (hbr : ExtractBitrate o file = Except.ok br)
    (hli : ExtractLoudnessInfo o.parse (o.loudOut file.Path) = PRes.ok li) :
    Event.runFfmpeg (pass2Args file outpath (loudnormFilter targetFmt li) sr br)
      ∈ (NormalizerRun targetFmt file outpath o).1
    ∧ (o.sampleRateOut file.Path).map (fun out => goTrim out "\n") = Except.ok sr
    ∧ (file.IsOpus = true → br = "128000")
    ∧ (file.IsOpus = false →
        (o.bitrateOut file.Path).map (fun out => goTrim out "\n") = Except.ok br) := by
  refine ⟨?_, hsr, ?_, ?_⟩
  · have hmem : Event.runFfmpeg (pass2Args file outpath (loudnormFilter targetFmt li) sr br)
        ∈ (NormalizeLoudness file outpath targetFmt li sr br o.engine o.renameRes).1 := by
      unfold NormalizeLoudness
      cases o.engine <;> simp
    simp only [NormalizerRun, hcov, hsr, hbr, hli]
    cases h2 : (NormalizeLoudness file outpath targetFmt li sr br o.engine o.renameRes).2 with
    | some e => simp [List.mem_append, hmem]
    | none =>
      by_cases hoc : (file.IsOpus && hc) = true
      · simp only [hoc, if_true]
        cases h3 : (SetCover file "cover.jpg" o.setCoverTool o.setCoverRename).2 with
        | some e => simp [List.mem_append, hmem]
        | none =>
          cases h4 : o.removeRes with
          | some e => simp [List.mem_append, hmem]
          | none => simp [List.mem_append, hmem]
      · simp only [hoc, if_false]
        simp [List.mem_append, hmem]
  · intro hop
    simp [ExtractBitrate, hop] at hbr
    exact hbr.symm
  · intro hop
    simp only [ExtractBitrate, hop] at hbr
    simpa using hbr

/-- C5 witness: the amended statement at a concrete non-opus file under
the all-success oracle. -/
theorem c5_pass2_rates_from_original_witness :
    Event.runFfmpeg (pass2Args ⟨"a.mp3", false⟩ "out/a.mp3"
        (loudnormFilter "-18.00" ⟨"-23.0", "-5.0", "7.0", "-33.0", "0.0"⟩)
        "48000" "320000")
      ∈ (NormalizerRun "-18.00" ⟨"a.mp3", false⟩ "out/a.mp3" allOkOracle).1
    ∧ (allOkOracle.sampleRateOut "a.mp3").map (fun out => goTrim out "\n")
        = Except.ok "48000"
    ∧ ((⟨"a.mp3", false⟩ : Mediafile).IsOpus = true → ("320000" : String) = "128000")
    ∧ ((⟨"a.mp3", false⟩ : Mediafile).IsOpus = false →
        (allOkOracle.bitrateOut "a.mp3").map (fun out => goTrim out "\n")
          = Except.ok "320000") :=
  c5_pass2_rates_from_original "-18.00" ⟨"a.mp3", false⟩ "out/a.mp3" allOkOracle false
    "48000" "320000" ⟨"-23.0", "-5.0", "7.0", "-33.0", "0.0"⟩ rfl rfl rfl rfl

/-- C6 counterexample: on a pass-1 output with a nested brace pair, the
substring framed by the first open brace and its *matching* close brace
is a parseable object, yet the code slices only to the *first* close
brace and reports an unmarshal failure. -/
theorem c6_first_close_brace_counterexample :
    ExtractLoudnessInfo
        (fun s => if s = "\x7ba\x7bb\x7dc\x7d" then some ⟨"1", "2", "3", "4", "5"⟩ else none)
        (Except.ok "x\x7ba\x7bb\x7dc\x7d")
      = PRes.err GoErr.unmarshal
    ∧ (specFramed "x\x7ba\x7bb\x7dc\x7d".data).map String.mk = some "\x7ba\x7bb\x7dc\x7d"
    ∧ (fun s => if s = "\x7ba\x7bb\x7dc\x7d"
          then some (⟨"1", "2", "3", "4", "5"⟩ : LoudnessInfo) else none)
        "\x7ba\x7bb\x7dc\x7d" = some ⟨"1", "2", "3", "4", "5"⟩ := by
  refine ⟨rfl, rfl, by simp⟩

/-- C6 amended: when the combined pass-1 output has its first open brace
no later than its first close brace, the substring handed to the JSON
decoder is exactly the one framed by the first open brace and the first
close brace (for ffmpeg's flat loudnorm report this coincides with the
matching close brace), and a decode failure is reported as the
measurement error. -/
theorem c6_parses_first_open_to_first_close (out : String)
    (parse : String → Option LoudnessInfo) (i j : Nat)
    (h1 : idxFrom? '\x7b' out.data = some i)
    (h2 : idxFrom? '\x7d' out.data = some j) (hij : i ≤ j) :
    ∃ sub : String, fromOpen out.data = some sub.data
      ∧ ExtractLoudnessInfo parse (Except.ok out)
          = (match parse sub with
             | some li => PRes.ok li
             | none => PRes.err GoErr.unmarshal) := by
  refine ⟨String.mk ((out.data.drop i).take (j + 1 - i)), fromOpen_eq h1 h2 hij, ?_⟩
  have hj : j < out.data.length := idxFrom?_lt_length h2
  have hcond : 0 ≤ (i : Int) ∧ (i : Int) ≤ (j : Int) + 1
      ∧ (j : Int) + 1 ≤ (out.data.length : Int) := by
    refine ⟨by omega, by omega, by omega⟩
  have ht1 : ((j : Int) + 1).toNat = j + 1 := by omega
  have ht2 : ((i : Int)).toNat = i := by omega
  simp only [ExtractLoudnessInfo, goIndex1, h1, h2, goSlice, if_pos hcond, ht1, ht2]

/-- C6 witness: the amended statement at a concrete output. -/
theorem c6_parses_first_open_to_first_close_witness :
    ∃ sub : String, fromOpen "x\x7bA\x7dy".data = some sub.data
      ∧ ExtractLoudnessInfo (fun _ => (none : Option LoudnessInfo))
            (Except.ok "x\x7bA\x7dy")
          = (match (fun (_ : String) => (none : Option LoudnessInfo)) sub with
             | some li => PRes.ok li
             | none => PRes.err GoErr.unmarshal) :=
  c6_parses_first_open_to_first_close "x\x7bA\x7dy" (fun _ => none) 1 3 rfl rfl
    (by omega)

/-- C8 counterexample: for the directory-style output argument `"out"`
(no extension, no trailing separator), the directory that gets created is
`filepath.Dir "out" = "."`, not the target directory `"out"` the claim
names. -/
theorem c8_bare_directory_argument_not_created :
    goExt "out" = ""
    ∧ CreateOutputDir "out" (fun _ => none) = ([Event.mkdirAll "."], none)
    ∧ Event.mkdirAll "out" ∉ [Event.mkdirAll "."] := by
  refine ⟨rfl, rfl, by decide⟩

/-- C8 amended: for every non-empty output argument the runner creates
(idempotently, via MkdirAll) exactly `filepath.Dir` of the argument —
the parent of a full file path, the directory itself only for a
trailing-separator argument, and only the parent `"."` for a bare
directory name — and a creation failure aborts the run before any file
is processed. -/
theorem c8_creates_dir_of_argument (outputDir : String) (mk : String → Option String)
    (h : outputDir ≠ "") :
    (CreateOutputDir outputDir mk).1 = [Event.mkdirAll (goDir outputDir)]
    ∧ (CreateOutputDir outputDir mk).2 = mk (goDir outputDir)
    ∧ (∀ (e : String) (collected : Except String (List Mediafile))
         (runResult : Mediafile → String → PRes Unit),
        mk (goDir outputDir) = some e →
        runner outputDir mk collected runResult
          = Except.error (RunnerFatal.createDirFailed e))
    ∧ goDir "out/" = "out" ∧ goDir "out/renamed.flac" = "out" ∧ goDir "out" = "." := by
  refine ⟨?_, ?_, ?_, rfl, rfl, rfl⟩
  · simp [CreateOutputDir, h]
  · simp [CreateOutputDir, h]
  · intro e collected runResult he
    simp [runner, CreateOutputDir, h, he]

/-- C8 witness: the amended statement at the trailing-separator argument
`"out/"` with a failing MkdirAll. -/
theorem c8_creates_dir_of_argument_witness :
    (CreateOutputDir "out/" (fun _ => some "eperm")).1
        = [Event.mkdirAll (goDir "out/")]
    ∧ (CreateOutputDir "out/" (fun _ => some "eperm")).2
        = (fun _ => some "eperm") (goDir "out/")
    ∧ (∀ (e : String) (collected : Except String (List Mediafile))
         (runResult : Mediafile → String → PRes Unit),
        (fun (_ : String) => some "eperm") (goDir "out/") = some e →
        runner "out/" (fun _ => some "eperm") collected runResult
          = Except.error (RunnerFatal.createDirFailed e))
    ∧ goDir "out/" = "out" ∧ goDir "out/renamed.flac" = "out" ∧ goDir "out" = "." :=
  c8_creates_dir_of_argument "out/" (fun _ => some "eperm") (by decide)

/-- C9: before the Resampler runs, the resample command rejects 44100 Hz
for `.opus`/`.ogg` inputs, accepts it for inputs outside that family
(in particular a `.wav` input), rejects every rate outside 8000..192000
for every input, and only lets an opus-family input through at a rate on
the allow-list 48000/24000/16000/12000/8000. -/
theorem c9_resample_rate_validation :
    (∀ input output : String,
      goHasSuffix input ".opus" = true ∨ goHasSuffix input ".ogg" = true →
      resampleCommand input output 44100 = CmdResult.fatalOpusRate 44100)
    ∧ (∀ input output : String, goHasSuffix input ".opus" = false →
        goHasSuffix input ".ogg" = false →
        resampleCommand input output 44100
          = CmdResult.run ⟨input, output, ProcSpec.resampler 44100⟩)
    ∧ resampleCommand "song.wav" "out" 44100
        = CmdResult.run ⟨"song.wav", "out", ProcSpec.resampler 44100⟩
    ∧ (∀ (input output : String) (rate : Int), rate < 8000 ∨ rate > 192000 →
        resampleCommand input output rate = CmdResult.fatalBounds rate)
    ∧ (∀ (input output : String) (rate : Int) (c : RunnerCall),
        goHasSuffix input ".opus" = true ∨ goHasSuffix input ".ogg" = true →
        resampleCommand input output rate = CmdResult.run c →
        rate ∈ validOpusRates) := by
  have hbounds : ¬((44100 : Int) > 192000 ∨ (44100 : Int) < 8000) := by omega
  have hnc : (44100 : Int) ∉ validOpusRates := by decide
  refine ⟨?_, ?_, rfl, ?_, ?_⟩
  · intro input output h
    rcases h with h | h <;>
      simp [resampleCommand, hbounds, h, hnc]
  · intro input output h1 h2
    simp [resampleCommand, hbounds, h1, h2]
  · intro input output rate h
    have hb : rate > 192000 ∨ rate < 8000 := by omega
    simp [resampleCommand, hb]
  · intro input output rate c h hrun
    by_contra hmem
    have hb : ¬(rate > 192000 ∨ rate < 8000) := by
      intro hb
      simp [resampleCommand, hb] at hrun
    rcases h with h | h <;>
      simp [resampleCommand, hb, h, hmem] at hrun

/-- C9 witness: the clauses at concrete inputs — an opus input at
44100 Hz is rejected and an out-of-bounds rate is rejected for a wav
input. -/
theorem c9_resample_rate_validation_witness :
    resampleCommand "b.opus" "" 44100 = CmdResult.fatalOpusRate 44100
    ∧ resampleCommand "a.wav" "" 500 = CmdResult.fatalBounds 500 :=
  ⟨c9_resample_rate_validation.1 "b.opus" "" (Or.inl (by decide)),
   c9_resample_rate_validation.2.2.2.1 "a.wav" "" 500 (by omega)⟩

/-- C10: the scratch cover extraction reports `hasCover = true` exactly
when the external tool exited successfully and `os.Stat` finds
`cover.jpg` in the working directory afterwards; since the stat probe
sees a leftover `cover.jpg` as well, a leftover from a previous file
makes it report a cover even when the current file embedded none
(the tool wrote nothing). -/
theorem c10_extract_cover_reports_stat_presence :
    (∀ (file : Mediafile) (toolRes : Option String) (statRes : StatResult),
      (ExtractCover file toolRes statRes).2 = Except.ok true ↔
        toolRes = none ∧ statRes = StatResult.found)
    ∧ (∀ file : Mediafile,
        (ExtractCover file none (coverStatAfter true false)).2 = Except.ok true) := by
  constructor
  · intro file toolRes statRes
    cases toolRes with
    | some e => simp [ExtractCover]
    | none => cases statRes <;> simp [ExtractCover]
  · intro file
    simp [ExtractCover, coverStatAfter]

end AudioWorkbench
